import Mathlib

/-!
Verification of the socket presence/session subsystem of the synkicycle
API (the `SocketService` class in `src/services/socket.service.ts`).

The service keeps two process-local JS `Map`s,
`connectedUsers : userId -> socketId` and
`activeConnections : userId -> connectionId`, plus the transport layer's
set of connected sockets and its room-membership table (socket.io rooms).
We embed the JS `Map` operations (`set` overwrites in place, `get`,
`has`, `delete`) over association lists, and the socket event handlers
(`connection`, `join-connection`, `leave-connection`, `send-message`,
`disconnect`) plus the public methods (`isUserOnline`, `getUserSocketId`,
`sendToUser`, `setActiveConnection`, `getActiveConnection`,
`clearActiveConnection`) as a step function on an explicit server state.
Event payloads carry no data any verified property depends on, so an
emitted event is modelled by its event name and its recipient sockets.
-/

namespace SynkSocket

/-- JS `Map.prototype.set`: overwrite the value in place if the key is
present, else append the new binding. -/
def mapSet : List (String × String) → String → String → List (String × String)
  | [], k, v => [(k, v)]
  | p :: rest, k, v => if p.1 = k then (k, v) :: rest else p :: mapSet rest k v

/-- JS `Map.prototype.get`: the value bound to the key, if any. -/
def mapGet : List (String × String) → String → Option String
  | [], _ => none
  | p :: rest, k => if p.1 = k then some p.2 else mapGet rest k

/-- JS `Map.prototype.delete`: drop the binding for the key. -/
def mapDelete (m : List (String × String)) (k : String) : List (String × String) :=
  m.filter (fun p => p.1 ≠ k)

/-- JS `Map.prototype.has`. -/
def mapHas (m : List (String × String)) (k : String) : Bool :=
  (mapGet m k).isSome

/-- An event emitted over the transport, reduced to its event name and
the socket ids it is delivered to. -/
structure Emit where
  event : String
  recipients : List String
deriving Repr, DecidableEq

/-- The in-memory server state: the transport's connected sockets and
room memberships, and the two `SocketService` maps. -/
structure St where
  sockets : List String
  rooms : List (String × String)
  connectedUsers : List (String × String)
  activeConnections : List (String × String)
deriving Repr, DecidableEq

def initSt : St := ⟨[], [], [], []⟩

/-- Add a socket id to the connected set (idempotently). -/
def insertSock (s : String) (l : List String) : List String :=
  if s ∈ l then l else s :: l

/-- Sockets currently joined to room `rid` (the target set of
`io.to(rid).emit`). -/
def roomMembers (st : St) (rid : String) : List String :=
  (st.rooms.filter (fun p => p.2 = rid)).map Prod.fst

/-- `SocketService.isUserOnline` (socket.service.ts line 310). -/
def isUserOnline (st : St) (u : String) : Bool :=
  mapHas st.connectedUsers u

/-- `SocketService.getUserSocketId` (line 314). -/
def getUserSocketId (st : St) (u : String) : Option String :=
  mapGet st.connectedUsers u

/-- `SocketService.sendToUser` (lines 318-325): look the user up in
`connectedUsers`; if present, emit the event to that socket id and
return `true`, otherwise return `false` with no emit. -/
def sendToUser (st : St) (u ev : String) : Option Emit × Bool :=
  match mapGet st.connectedUsers u with
  | some sid => (some ⟨ev, [sid]⟩, true)
  | none => (none, false)

/-- `SocketService.setActiveConnection` (line 331). -/
def setActiveConnection (st : St) (u cid : String) : St :=
  { st with activeConnections := mapSet st.activeConnections u cid }

/-- `SocketService.getActiveConnection` (line 335). -/
def getActiveConnection (st : St) (u : String) : Option String :=
  mapGet st.activeConnections u

/-- `SocketService.clearActiveConnection` (line 339). -/
def clearActiveConnection (st : St) (u : String) : St :=
  { st with activeConnections := mapDelete st.activeConnections u }

/-- The socket events whose handlers mutate the state. Each carries the
authenticated user id and the socket id of the connection raising it
(the auth middleware guarantees `socket.userId` is set). -/
inductive Act
  | connect (uid sid : String)
  | join (uid sid rid : String)
  | leave (uid sid rid : String)
  | sendMsg (sid rid : String)
  | disconnect (uid sid : String)
deriving Repr, DecidableEq

/-- One step of the event loop: the handler set up in
`setupEventHandlers` (lines 67-172) together with `handleDisconnect`
(lines 283-303), returning the new state and the events emitted.

* `connect` (lines 72-82): record the socket, `connectedUsers.set`,
  then `io.emit('user:online')` to every connected socket (the database
  `socketId` write is an external fire-and-forget side effect).
* `join` (lines 99-105): `socket.join(connectionId)` then
  `setActiveConnection`.
* `leave` (lines 107-113): `socket.leave(connectionId)` then
  `clearActiveConnection` — unconditionally.
* `sendMsg` (lines 116-122): `io.to(connectionId).emit('new-message')`
  to every socket in the room, the sender included.
* `disconnect` (lines 283-303): `connectedUsers.delete`, then
  `io.emit('user:offline')` and `socket.broadcast.emit('user:status')`;
  the handler never touches `activeConnections` or the room table
  (room cleanup for a dead socket is the transport's own business). -/
def step (st : St) : Act → St × List Emit
  | .connect uid sid =>
      let socks := insertSock sid st.sockets
      ({ st with sockets := socks,
                 connectedUsers := mapSet st.connectedUsers uid sid },
       [⟨"user:online", socks⟩])
  | .join uid sid rid =>
      ({ st with rooms := if (sid, rid) ∈ st.rooms then st.rooms
                          else (sid, rid) :: st.rooms,
                 activeConnections := mapSet st.activeConnections uid rid },
       [])
  | .leave uid sid rid =>
      ({ st with rooms := st.rooms.filter (fun p => p ≠ (sid, rid)),
                 activeConnections := mapDelete st.activeConnections uid },
       [])
  | .sendMsg _ rid =>
      (st, [⟨"new-message", roomMembers st rid⟩])
  | .disconnect uid sid =>
      let socks := st.sockets.filter (fun x => x ≠ sid)
      ({ st with sockets := socks,
                 connectedUsers := mapDelete st.connectedUsers uid },
       [⟨"user:offline", socks⟩, ⟨"user:status", socks⟩])

/-- Run a trace of events from a given state. -/
def runFrom (st : St) (t : List Act) : St :=
  t.foldl (fun s a => (step s a).1) st

/-- Run a trace of events from the empty initial state. -/
def run (t : List Act) : St :=
  runFrom initSt t

/-- One update of the spec-side room-membership tracker: a
`join-connection` for this (socket, room) pair makes the socket a
member, a `leave-connection` for the same pair removes it, every other
event leaves the answer unchanged. -/
def memberUpd (sid rid : String) (b : Bool) : Act → Bool
  | .join _ s r => if s = sid ∧ r = rid then true else b
  | .leave _ s r => if s = sid ∧ r = rid then false else b
  | _ => b

/-- Spec-side characterisation of room membership after a trace: the
connection called `join(sid, rid)` and has not since called
`leave(sid, rid)`. -/
def joinedNotLeft (t : List Act) (sid rid : String) : Bool :=
  t.foldl (memberUpd sid rid) false

/-- A connection document as seen by the unread-count query: its id,
its participants array and its status (`Connection.find` matches a
scalar against the `participants` array by containment). -/
structure Conn where
  id : String
  participants : List String
  status : String
deriving Repr, DecidableEq

/-- A message document, reduced to the fields the unread-count query
filters on (`connectionId`, `receiverId`, `status`). -/
structure Msg where
  connectionId : String
  receiverId : String
  status : String
deriving Repr, DecidableEq

/-- The external message store queried by `handleUnreadCountsRequest`. -/
structure Store where
  connections : List Conn
  messages : List Msg
deriving Repr

/-- The per-connection unread count,
`Message.countDocuments({connectionId, receiverId: userId,
status: {$ne: 'read'}})` (socket.service.ts lines 359-363). -/
def countUnread (msgs : List Msg) (cid uid : String) : Nat :=
  (msgs.filter
    (fun m => m.connectionId = cid ∧ m.receiverId = uid ∧ m.status ≠ "read")).length

/-- `SocketService.handleUnreadCountsRequest` (lines 343-379): find the
connections with `participants: userId` and `status: 'accepted'`, pair
each with its unread count, keep those with `unreadCount > 0`, and
return them with the reduce-sum total. -/
def unreadSummary (store : Store) (uid : String) : List (String × Nat) × Nat :=
  let conns := store.connections.filter
    (fun c => uid ∈ c.participants ∧ c.status = "accepted")
  let counts := conns.map (fun c => (c.id, countUnread store.messages c.id uid))
  let withUnread := counts.filter (fun item => item.2 > 0)
  (withUnread, withUnread.foldl (fun acc item => acc + item.2) 0)

/-- The entries of an association list bound to a given key. -/
def entriesFor (m : List (String × String)) (k : String) : List (String × String) :=
  m.filter (fun p => p.1 = k)

/-- Well-formedness of the association-list model of a JS `Map`: every
key occurs at most once, which is what a real `Map` maintains. -/
def MapWF (m : List (String × String)) : Prop :=
  (m.map Prod.fst).Nodup

theorem mapGet_set_self (m : List (String × String)) (k v : String) :
    mapGet (mapSet m k v) k = some v := by
  induction m with
  | nil => simp [mapSet, mapGet]
  | cons p rest ih =>
    by_cases h : p.1 = k
    · simp [mapSet, h, mapGet]
    · simp [mapSet, h, mapGet, ih]

theorem mapGet_set_ne (m : List (String × String)) (k v k2 : String)
    (h : k2 ≠ k) : mapGet (mapSet m k v) k2 = mapGet m k2 := by
  induction m with
  | nil => simp [mapSet, mapGet, Ne.symm h]
  | cons p rest ih =>
    by_cases hp : p.1 = k
    · subst hp
      simp [mapSet, mapGet, Ne.symm h]
    · simp [mapSet, hp, mapGet, ih]

theorem mapDelete_cons (p : String × String) (rest : List (String × String))
    (k : String) :
    mapDelete (p :: rest) k =
      if p.1 = k then mapDelete rest k else p :: mapDelete rest k := by
  by_cases hp : p.1 = k <;> simp [mapDelete, List.filter_cons, hp]

theorem mapGet_delete_self (m : List (String × String)) (k : String) :
    mapGet (mapDelete m k) k = none := by
  induction m with
  | nil => rfl
  | cons p rest ih =>
    rw [mapDelete_cons]
    by_cases h : p.1 = k
    · rw [if_pos h]; exact ih
    · rw [if_neg h]
      simpa [mapGet, h] using ih

theorem mapGet_delete_ne (m : List (String × String)) (k k2 : String)
    (h : k2 ≠ k) : mapGet (mapDelete m k) k2 = mapGet m k2 := by
  induction m with
  | nil => rfl
  | cons p rest ih =>
    rw [mapDelete_cons]
    by_cases hp : p.1 = k
    · rw [if_pos hp]
      have hp2 : ¬ p.1 = k2 := by rw [hp]; exact Ne.symm h
      simp [mapGet, hp2, ih]
    · rw [if_neg hp]
      simp [mapGet, ih]

theorem mapGet_none_of_not_key (m : List (String × String)) (k : String)
    (h : k ∉ m.map Prod.fst) : mapGet m k = none := by
  induction m with
  | nil => rfl
  | cons p rest ih =>
    simp only [List.map_cons, List.mem_cons] at h
    push_neg at h
    simp [mapGet, Ne.symm h.1, ih h.2]

theorem mapDelete_of_get_none (m : List (String × String)) (k : String)
    (h : mapGet m k = none) : mapDelete m k = m := by
  induction m with
  | nil => rfl
  | cons p rest ih =>
    by_cases hp : p.1 = k
    · simp [mapGet, hp] at h
    · rw [mapGet] at h
      rw [if_neg hp] at h
      rw [mapDelete_cons, if_neg hp, ih h]

theorem mapSet_cons (p : String × String) (rest : List (String × String))
    (k v : String) :
    mapSet (p :: rest) k v =
      if p.1 = k then (k, v) :: rest else p :: mapSet rest k v := rfl

theorem entriesFor_cons (p : String × String) (rest : List (String × String))
    (k : String) :
    entriesFor (p :: rest) k =
      if p.1 = k then p :: entriesFor rest k else entriesFor rest k := by
  by_cases hp : p.1 = k <;> simp [entriesFor, List.filter_cons, hp]

theorem mem_keys_mapSet (m : List (String × String)) (k v x : String)
    (h : x ∈ (mapSet m k v).map Prod.fst) : x = k ∨ x ∈ m.map Prod.fst := by
  induction m with
  | nil => simpa [mapSet] using h
  | cons p rest ih =>
    rw [mapSet_cons] at h
    by_cases hp : p.1 = k
    · rw [if_pos hp, List.map_cons, List.mem_cons] at h
      rcases h with h | h
      · exact Or.inl h
      · exact Or.inr (by simp only [List.map_cons, List.mem_cons]; exact Or.inr h)
    · rw [if_neg hp, List.map_cons, List.mem_cons] at h
      rcases h with h | h
      · exact Or.inr (by simp only [List.map_cons, List.mem_cons]; exact Or.inl h)
      · rcases ih h with h2 | h2
        · exact Or.inl h2
        · exact Or.inr (by simp only [List.map_cons, List.mem_cons]; exact Or.inr h2)

theorem MapWF_mapSet (m : List (String × String)) (k v : String)
    (hwf : MapWF m) : MapWF (mapSet m k v) := by
  induction m with
  | nil => simp [MapWF, mapSet]
  | cons p rest ih =>
    rw [MapWF, List.map_cons, List.nodup_cons] at hwf
    rw [mapSet_cons]
    by_cases hp : p.1 = k
    · rw [if_pos hp, MapWF, List.map_cons, List.nodup_cons]
      exact ⟨hp ▸ hwf.1, hwf.2⟩
    · have ihr := ih hwf.2
      rw [if_neg hp, MapWF, List.map_cons, List.nodup_cons]
      refine ⟨fun hmem => ?_, ihr⟩
      rcases mem_keys_mapSet rest k v p.1 hmem with h2 | h2
      · exact hp h2
      · exact hwf.1 h2

theorem entriesFor_nil_of_not_key (m : List (String × String)) (k : String)
    (h : k ∉ m.map Prod.fst) : entriesFor m k = [] := by
  induction m with
  | nil => rfl
  | cons p rest ih =>
    rw [List.map_cons] at h
    have h1 : ¬ p.1 = k := by
      intro e
      exact h (by simp [e])
    have h2 : k ∉ List.map Prod.fst rest := fun hm => h (List.mem_cons_of_mem _ hm)
    rw [entriesFor_cons, if_neg h1]
    exact ih h2

theorem entriesFor_mapSet_self (m : List (String × String)) (k v : String)
    (hwf : MapWF m) : entriesFor (mapSet m k v) k = [(k, v)] := by
  induction m with
  | nil => simp [mapSet, entriesFor, List.filter]
  | cons p rest ih =>
    rw [MapWF, List.map_cons, List.nodup_cons] at hwf
    rw [mapSet_cons]
    by_cases hp : p.1 = k
    · rw [if_pos hp, entriesFor_cons, if_pos rfl,
        entriesFor_nil_of_not_key rest k (hp ▸ hwf.1)]
    · rw [if_neg hp, entriesFor_cons, if_neg hp]
      exact ih hwf.2

theorem unreadSummary_fst (store : Store) (uid : String) :
    (unreadSummary store uid).1
      = ((store.connections.filter
            (fun c => uid ∈ c.participants ∧ c.status = "accepted")).map
          (fun c => (c.id, countUnread store.messages c.id uid))).filter
          (fun item => item.2 > 0) := rfl

theorem unreadSummary_snd (store : Store) (uid : String) :
    (unreadSummary store uid).2
      = (unreadSummary store uid).1.foldl (fun acc item => acc + item.2) 0 := rfl

theorem foldl_add_snd (l : List (String × Nat)) (n : Nat) :
    l.foldl (fun acc item => acc + item.2) n = n + (l.map Prod.snd).sum := by
  induction l generalizing n with
  | nil => simp
  | cons p rest ih => simp [ih, Nat.add_assoc]

theorem isOnline_false_get_none (st : St) (u : String)
    (h : isUserOnline st u = false) : mapGet st.connectedUsers u = none := by
  rw [isUserOnline, mapHas] at h
  cases hg : mapGet st.connectedUsers u with
  | none => rfl
  | some v => rw [hg] at h; simp at h

theorem sid_mem_roomMembers_iff (st : St) (sid rid : String) :
    sid ∈ roomMembers st rid ↔ (sid, rid) ∈ st.rooms := by
  constructor
  · intro h
    rcases List.mem_map.1 h with ⟨p, hp, hfst⟩
    rcases List.mem_filter.1 hp with ⟨hmem, hsnd⟩
    have h2 : p.2 = rid := by simpa using hsnd
    have h1 : p = (sid, rid) := by
      cases p
      simp only [Prod.mk.injEq]
      exact ⟨hfst, h2⟩
    exact h1 ▸ hmem
  · intro h
    exact List.mem_map.2 ⟨(sid, rid), List.mem_filter.2 ⟨h, by simp⟩, rfl⟩

theorem mem_rooms_runFrom (t : List Act) (st : St) (sid rid : String) :
    ((sid, rid) ∈ (runFrom st t).rooms) ↔
      t.foldl (memberUpd sid rid) (decide ((sid, rid) ∈ st.rooms)) = true := by
  induction t generalizing st with
  | nil => simp [runFrom]
  | cons a t ih =>
    have hrun : runFrom st (a :: t) = runFrom ((step st a).1) t := rfl
    rw [hrun, List.foldl_cons, ih]
    have key : decide ((sid, rid) ∈ ((step st a).1).rooms)
        = memberUpd sid rid (decide ((sid, rid) ∈ st.rooms)) a := by
      cases a with
      | connect uid s => rfl
      | sendMsg s r => rfl
      | disconnect uid s => rfl
      | join uid s r =>
        by_cases hsr : s = sid ∧ r = rid
        · obtain ⟨hs, hr⟩ := hsr
          subst hs; subst hr
          by_cases hm : (s, r) ∈ st.rooms <;> simp [step, hm, memberUpd]
        · have hne : ((sid, rid) : String × String) ≠ (s, r) := by
            intro e
            rw [Prod.mk.injEq] at e
            exact hsr ⟨e.1.symm, e.2.symm⟩
          by_cases hm : (s, r) ∈ st.rooms <;>
            simp [step, hm, memberUpd, hsr, hne]
      | leave uid s r =>
        by_cases hsr : s = sid ∧ r = rid
        · obtain ⟨hs, hr⟩ := hsr
          subst hs; subst hr
          simp [step, memberUpd, List.mem_filter]
        · have hne : ((sid, rid) : String × String) ≠ (s, r) := by
            intro e
            rw [Prod.mk.injEq] at e
            exact hsr ⟨e.1.symm, e.2.symm⟩
          simp [step, memberUpd, List.mem_filter, hsr, hne]
    rw [key]

/-- Claim C1: after `register(P, h)` with no intervening unregister,
`isUserOnline(P)` is true and `getUserSocketId(P) = h`; and two
back-to-back registrations for the same principal leave exactly one
`connectedUsers` entry for that principal, bound to the second socket
id (last-write-wins). -/
theorem c1_register_lastWriteWins (st : St) (u h h1 h2 : String)
    (hwf : MapWF st.connectedUsers) :
    (isUserOnline ((step st (.connect u h)).1) u = true ∧
      getUserSocketId ((step st (.connect u h)).1) u = some h) ∧
    entriesFor
        ((step ((step st (.connect u h1)).1) (.connect u h2)).1).connectedUsers u
      = [(u, h2)] := by
  refine ⟨⟨?_, ?_⟩, ?_⟩
  · simp [isUserOnline, mapHas, step, mapGet_set_self]
  · simp [getUserSocketId, step, mapGet_set_self]
  · have hwf1 : MapWF (mapSet st.connectedUsers u h1) := MapWF_mapSet _ _ _ hwf
    simpa [step] using entriesFor_mapSet_self (mapSet st.connectedUsers u h1) u h2 hwf1

theorem c1_register_lastWriteWins_witness :
    MapWF initSt.connectedUsers ∧
    ((isUserOnline ((step initSt (.connect "A" "h")).1) "A" = true ∧
        getUserSocketId ((step initSt (.connect "A" "h")).1) "A" = some "h") ∧
      entriesFor
          ((step ((step initSt (.connect "A" "h1")).1) (.connect "A" "h2")).1).connectedUsers "A"
        = [("A", "h2")]) :=
  ⟨List.Pairwise.nil, c1_register_lastWriteWins initSt "A" "h" "h1" "h2" List.Pairwise.nil⟩

/-- Claim C3 counterexample: with the active room set to `conn_1`,
leaving the different room `conn_2` nevertheless clears the Active-Room
Entry — `leave-connection` calls `clearActiveConnection`
unconditionally, so the entry does not stay `conn_1` as claimed. -/
theorem c3_counterexample :
    getActiveConnection (run [.connect "A" "sA", .join "A" "sA" "conn_1"]) "A"
        = some "conn_1" ∧
    "conn_2" ≠ "conn_1" ∧
    getActiveConnection
        ((step (run [.connect "A" "sA", .join "A" "sA" "conn_1"])
          (.leave "A" "sA" "conn_2")).1) "A"
      = none := by
  refine ⟨rfl, by decide, rfl⟩

/-- Claim C3 (amended): the `leave-connection` handler clears the
caller's Active-Room Entry unconditionally, whatever room is being left
and whatever room is currently active. -/
theorem c3_leave_clears_unconditionally (st : St) (u s r : String) :
    getActiveConnection ((step st (.leave u s r)).1) u = none := by
  simp [getActiveConnection, step, mapGet_delete_self]

/-- Claim C10: `handleDisconnect` never touches `activeConnections`, so
after a principal disconnects, every `getActiveConnection` answer —
including the disconnected principal's own — is exactly what it was
before the disconnect. -/
theorem c10_disconnect_preserves_activeRoom (st : St) (u s u2 : String) :
    ((step st (.disconnect u s)).1).activeConnections = st.activeConnections ∧
    getActiveConnection ((step st (.disconnect u s)).1) u2
      = getActiveConnection st u2 :=
  ⟨rfl, rfl⟩

/-- Claim C8: `sendToUser` returns `false` (with no emit, hence no
exception path) when the principal has no session entry, and emits the
event to the registered socket id and returns `true` when it does. -/
theorem c8_sendToUser_delivery (st : St) (u ev sid : String) :
    (isUserOnline st u = false → sendToUser st u ev = (none, false)) ∧
    (getUserSocketId st u = some sid →
      sendToUser st u ev = (some ⟨ev, [sid]⟩, true)) := by
  constructor
  · intro h
    rw [sendToUser, isOnline_false_get_none st u h]
  · intro h
    rw [getUserSocketId] at h
    rw [sendToUser, h]

theorem c8_sendToUser_delivery_witness :
    (isUserOnline (run [.connect "A" "s1"]) "B" = false ∧
      sendToUser (run [.connect "A" "s1"]) "B" "notification" = (none, false)) ∧
    (getUserSocketId (run [.connect "A" "s1"]) "A" = some "s1" ∧
      sendToUser (run [.connect "A" "s1"]) "A" "notification"
        = (some ⟨"notification", ["s1"]⟩, true)) :=
  ⟨⟨rfl, (c8_sendToUser_delivery (run [.connect "A" "s1"]) "B" "notification" "s1").1 rfl⟩,
   ⟨rfl, (c8_sendToUser_delivery (run [.connect "A" "s1"]) "A" "notification" "s1").2 rfl⟩⟩

/-- Claim C2: after any trace of events, a `send-message` for room
`rid` emits exactly one `new-message` event whose recipients are the
room members, and a socket is among those recipients precisely when it
joined the room and has not since left it — the sender's own socket
included when it is joined, and nobody else. -/
theorem c2_relay_exact_membership (t : List Act) (s sid rid : String) :
    (step (run t) (.sendMsg s rid)).2
        = [⟨"new-message", roomMembers (run t) rid⟩] ∧
    (sid ∈ roomMembers (run t) rid ↔ joinedNotLeft t sid rid = true) := by
  refine ⟨rfl, ?_⟩
  rw [sid_mem_roomMembers_iff]
  have h := mem_rooms_runFrom t initSt sid rid
  simpa [run, joinedNotLeft, initSt] using h

/-- Claim C4 counterexample: with A already connected on socket `sA`,
B registering on socket `sB` makes the connection handler run
`io.emit('user:online')`, whose recipient set `["sB", "sA"]` contains
B's own newly registered socket — the notification is delivered to the
registering connection itself, contrary to the claim. -/
theorem c4_counterexample :
    (step (run [.connect "A" "sA"]) (.connect "B" "sB")).2.map Emit.event
        = ["user:online"] ∧
    (step (run [.connect "A" "sA"]) (.connect "B" "sB")).2.map Emit.recipients
        = [["sB", "sA"]] :=
  ⟨rfl, rfl⟩

/-- Claim C4 (amended): on register the `user:online` notification is
broadcast via `io.emit` to every active session, the newly registered
connection itself included, with all previously connected sockets also
among the recipients. -/
theorem c4_online_broadcast_includes_self (st : St) (u s : String) :
    (step st (.connect u s)).2 = [⟨"user:online", insertSock s st.sockets⟩] ∧
    s ∈ insertSock s st.sockets ∧
    st.sockets ⊆ insertSock s st.sockets := by
  refine ⟨rfl, ?_, ?_⟩
  · by_cases hs : s ∈ st.sockets <;> simp [insertSock, hs]
  · intro x hx
    by_cases hs : s ∈ st.sockets <;> simp [insertSock, hs, hx]

theorem c4_online_broadcast_includes_self_witness :
    (step (run [.connect "A" "sA"]) (.connect "B" "sB")).2
        = [⟨"user:online", insertSock "sB" (run [.connect "A" "sA"]).sockets⟩] ∧
    "sB" ∈ insertSock "sB" (run [.connect "A" "sA"]).sockets ∧
    (run [.connect "A" "sA"]).sockets
      ⊆ insertSock "sB" (run [.connect "A" "sA"]).sockets :=
  c4_online_broadcast_includes_self (run [.connect "A" "sA"]) "B" "sB"

/-- Claim C5 counterexample: disconnecting a principal that was never
registered still runs the unconditional offline broadcast — the
handler emits `user:offline` and `user:status` even though the registry
had no entry, contrary to the claimed "no broadcast". -/
theorem c5_counterexample :
    isUserOnline initSt "P" = false ∧
    (step initSt (.disconnect "P" "s")).2.map Emit.event
        = ["user:offline", "user:status"] :=
  ⟨rfl, rfl⟩

/-- Claim C5 (amended): unregistering a principal with no session entry
leaves both registries unchanged (the `Map.delete` is a no-op), but the
offline broadcast — `user:offline` followed by the backward-compatible
`user:status` — is still emitted unconditionally. -/
theorem c5_unregister_unknown (st : St) (u s : String)
    (h : isUserOnline st u = false) :
    ((step st (.disconnect u s)).1).connectedUsers = st.connectedUsers ∧
    ((step st (.disconnect u s)).1).activeConnections = st.activeConnections ∧
    (step st (.disconnect u s)).2.map Emit.event
      = ["user:offline", "user:status"] := by
  refine ⟨?_, rfl, rfl⟩
  simp [step, mapDelete_of_get_none _ _ (isOnline_false_get_none st u h)]

theorem c5_unregister_unknown_witness :
    isUserOnline initSt "P" = false ∧
    (((step initSt (.disconnect "P" "s")).1).connectedUsers = initSt.connectedUsers ∧
      ((step initSt (.disconnect "P" "s")).1).activeConnections
        = initSt.activeConnections ∧
      (step initSt (.disconnect "P" "s")).2.map Emit.event
        = ["user:offline", "user:status"]) :=
  ⟨rfl, c5_unregister_unknown initSt "P" "s" rfl⟩

/-- Claim C9: after `register(P, h1)` then `register(P, h2)`, a
disconnect of the stale socket `h1` deletes P's single session entry —
the one bound to `h2` — and emits the offline broadcast, so P is
reported offline and `sendToUser` returns `false`, even though socket
`h2` is still connected. -/
theorem c9_stale_disconnect (st : St) (u h1 h2 ev : String) (hne : h2 ≠ h1) :
    isUserOnline
        ((step ((step ((step st (.connect u h1)).1) (.connect u h2)).1)
          (.disconnect u h1)).1) u = false ∧
    (sendToUser
        ((step ((step ((step st (.connect u h1)).1) (.connect u h2)).1)
          (.disconnect u h1)).1) u ev).2 = false ∧
    (step ((step ((step st (.connect u h1)).1) (.connect u h2)).1)
        (.disconnect u h1)).2.map Emit.event
      = ["user:offline", "user:status"] ∧
    h2 ∈ ((step ((step ((step st (.connect u h1)).1) (.connect u h2)).1)
        (.disconnect u h1)).1).sockets := by
  have hget :
      mapGet (mapDelete (mapSet (mapSet st.connectedUsers u h1) u h2) u) u
        = none := mapGet_delete_self _ _
  refine ⟨?_, ?_, rfl, ?_⟩
  · simp [isUserOnline, mapHas, step, hget]
  · simp [sendToUser, step, hget]
  · have hmem : h2 ∈ insertSock h2 (insertSock h1 st.sockets) := by
      rw [insertSock]
      by_cases hs : h2 ∈ insertSock h1 st.sockets
      · rw [if_pos hs]; exact hs
      · rw [if_neg hs]; exact List.mem_cons_self _ _
    simp [step, List.mem_filter, hmem, hne]

theorem c9_stale_disconnect_witness :
    ("s2" : String) ≠ "s1" ∧
    (isUserOnline
        ((step ((step ((step initSt (.connect "A" "s1")).1) (.connect "A" "s2")).1)
          (.disconnect "A" "s1")).1) "A" = false ∧
      (sendToUser
          ((step ((step ((step initSt (.connect "A" "s1")).1) (.connect "A" "s2")).1)
            (.disconnect "A" "s1")).1) "A" "notification").2 = false ∧
      (step ((step ((step initSt (.connect "A" "s1")).1) (.connect "A" "s2")).1)
          (.disconnect "A" "s1")).2.map Emit.event
        = ["user:offline", "user:status"] ∧
      "s2" ∈ ((step ((step ((step initSt (.connect "A" "s1")).1)
          (.connect "A" "s2")).1) (.disconnect "A" "s1")).1).sockets) :=
  ⟨by decide, c9_stale_disconnect initSt "A" "s1" "s2" "notification" (by decide)⟩

/-- Claim C6 counterexample: a connection with status `pending` whose
participant P has one unread message addressed to them is dropped by
the `status: 'accepted'` filter — `unreadSummary` returns no entry for
it, although P is a participant and the unread count is 1. -/
theorem c6_counterexample :
    "P" ∈ (Conn.mk "c1" ["P", "Q"] "pending").participants ∧
    countUnread [Msg.mk "c1" "P" "sent"] "c1" "P" = 1 ∧
    (unreadSummary
        ⟨[Conn.mk "c1" ["P", "Q"] "pending"], [Msg.mk "c1" "P" "sent"]⟩ "P").1
      = [] := by
  refine ⟨by decide, rfl, rfl⟩

/-- Claim C6 (amended): `unreadSummary(P)` considers every conversation
with status `accepted` in which P is a participant — any such
conversation with a positive count of messages addressed to P not yet
marked read produces an entry carrying that count. -/
theorem c6_unread_covers_accepted (store : Store) (uid : String) (c : Conn)
    (hc : c ∈ store.connections) (hacc : c.status = "accepted")
    (hpart : uid ∈ c.participants)
    (hpos : 0 < countUnread store.messages c.id uid) :
    (c.id, countUnread store.messages c.id uid) ∈ (unreadSummary store uid).1 := by
  rw [unreadSummary_fst]
  refine List.mem_filter.2 ⟨?_, by simpa using hpos⟩
  exact List.mem_map.2 ⟨c, List.mem_filter.2 ⟨hc, by simp [hpart, hacc]⟩, rfl⟩

theorem c6_unread_covers_accepted_witness :
    ("c1",
        countUnread [Msg.mk "c1" "P" "sent"] "c1" "P")
      ∈ (unreadSummary
          ⟨[Conn.mk "c1" ["P", "Q"] "accepted"], [Msg.mk "c1" "P" "sent"]⟩ "P").1 :=
  c6_unread_covers_accepted
    ⟨[Conn.mk "c1" ["P", "Q"] "accepted"], [Msg.mk "c1" "P" "sent"]⟩ "P"
    (Conn.mk "c1" ["P", "Q"] "accepted")
    (by decide) rfl (by decide) (by decide)

/-- Claim C7: no entry returned by `unreadSummary` carries a zero
count, and the accompanying total is exactly the sum of the returned
entries' counts. -/
theorem c7_no_zero_counts_and_total (store : Store) (uid : String) :
    (unreadSummary store uid).1.all (fun item => item.2 ≠ 0) = true ∧
    (unreadSummary store uid).2
      = ((unreadSummary store uid).1.map Prod.snd).sum := by
  constructor
  · rw [List.all_eq_true]
    intro x hx
    rw [unreadSummary_fst] at hx
    have hx2 := (List.mem_filter.1 hx).2
    simp at hx2 ⊢
    omega
  · rw [unreadSummary_snd, foldl_add_snd, Nat.zero_add]

end SynkSocket
